import Mathlib

/-!
Verification development for the mantara-api AI gateway service
(`unified-ai.service.js`, `message.service.js`, `ai-models.js`).

The JavaScript source is shallowly embedded: JS strings are modelled as
`String`/`List Char`, `JSON.parse` by an executable JSON parser with the
same grammar, JS objects coming out of `JSON.parse` by the `Json` type
(duplicate keys resolve to the last occurrence, as in JavaScript), and
JS truthiness/coercions by explicit helper functions.  Asynchronous code
carries no concurrency that the verified claims depend on, so `await`
points are collapsed to plain function calls; a JS `throw` is modelled
with `Except`/`Option`.
-/

set_option maxRecDepth 20000

/-! ## JavaScript-style string primitives (on `List Char`) -/

/-- Whitespace recognized by both `String.prototype.trim` and the JSON
grammar, restricted to the ASCII whitespace actually reachable in the
service's stream data. -/
def isJsWs (c : Char) : Bool :=
  c = ' ' || c = '\t' || c = '\n' || c = '\r' || c = '\x0b' || c = '\x0c'

/-- `String.prototype.trim`: drop whitespace from both ends. -/
def jsTrim (cs : List Char) : List Char :=
  ((cs.dropWhile isJsWs).reverse.dropWhile isJsWs).reverse

/-- `str.split('\n')`: split on newline, keeping empty pieces (JS keeps
them; `"a\n".split('\n')` is `["a", ""]`). -/
def splitNl : List Char → List (List Char)
  | [] => [[]]
  | c :: rest =>
    if c = '\n' then [] :: splitNl rest
    else
      match splitNl rest with
      | l :: ls => (c :: l) :: ls
      | [] => [[c]]

/-- Does `pat` occur as a contiguous subsequence of the second list?
(Used only to state that an old context value is nowhere inside a merged
value.) -/
def containsSeq (pat : List Char) : List Char → Bool
  | [] => pat.isEmpty
  | c :: rest => List.isPrefixOf pat (c :: rest) || containsSeq pat rest

/-! ## JSON values (result of JavaScript `JSON.parse`) -/

/-- A JSON value as produced by `JSON.parse`.  Numbers keep their source
lexeme: none of the verified code paths computes with numeric values. -/
inductive Json where
  | null
  | bool (b : Bool)
  | num (lexeme : String)
  | str (s : String)
  | arr (elems : List Json)
  | obj (fields : List (String × Json))
deriving Repr

/-- Property lookup on the field list of a JS object built by
`JSON.parse`: a duplicated key resolves to its last occurrence. -/
def lookupLast (fields : List (String × Json)) (k : String) : Option Json :=
  match fields with
  | [] => none
  | (k', v) :: rest =>
    match lookupLast rest k with
    | some r => some r
    | none => if k' = k then some v else none

/-- JS property read `obj.k` / `obj?.k` on a JSON value: yields the field
on objects and `undefined` (here `none`) on every other value. -/
def Json.getField : Json → String → Option Json
  | .obj fields, k => lookupLast fields k
  | _, _ => none

/-- JS indexed read `x?.[n]`: element of an array, property `"n"` of an
object, single-character string of a string, `undefined` otherwise. -/
def Json.getIndex : Json → Nat → Option Json
  | .arr elems, n => elems.get? n
  | .obj fields, n => lookupLast fields (toString n)
  | .str s, n => (s.data.get? n).map (fun c => Json.str (String.mk [c]))
  | _, _ => none

/-- Is a digit character different from `'0'`? -/
def isNonzeroDigit (c : Char) : Bool := c.isDigit && c ≠ '0'

/-- JS truthiness of a JSON value: `null`, `false`, `''` and numeric zero
are falsy; arrays and objects are always truthy.  A number lexeme denotes
zero exactly when its mantissa has no nonzero digit. -/
def jsTruthy : Json → Bool
  | .null => false
  | .bool b => b
  | .str s => s ≠ ""
  | .num lexeme => (lexeme.data.takeWhile (fun c => c ≠ 'e' && c ≠ 'E')).any isNonzeroDigit
  | .arr _ => true
  | .obj _ => true

mutual
/-- JS string coercion `String(v)` of a JSON value, as used by
`fullMessage += contentChunk` and `JSON.parse(content)`.  Number lexemes
are kept verbatim (the verified runs only ever coerce strings). -/
def jsToString : Json → String
  | .null => "null"
  | .bool b => if b then "true" else "false"
  | .num lexeme => lexeme
  | .str s => s
  | .arr elems => jsToStringElems elems
  | .obj _ => "[object Object]"

/-- Array coercion: elements joined by `','`, with `null` rendered empty,
as `Array.prototype.toString` does. -/
def jsToStringElems : List Json → String
  | [] => ""
  | [e] => match e with | .null => "" | x => jsToString x
  | e :: es =>
    (match e with | .null => "" | x => jsToString x) ++ "," ++ jsToStringElems es
end

/-! ## Executable JSON parser (the `JSON.parse` used by `processLine`)

Recursive-descent over `List Char` with explicit fuel; `jsonParse`
supplies enough fuel that the parser never runs dry on its own input,
so `none` means a genuine `SyntaxError` of `JSON.parse`. -/

/-- Hexadecimal digit value, for `\uXXXX` escapes. -/
def hexVal (c : Char) : Option Nat :=
  if '0' ≤ c ∧ c ≤ '9' then some (c.toNat - '0'.toNat)
  else if 'a' ≤ c ∧ c ≤ 'f' then some (c.toNat - 'a'.toNat + 10)
  else if 'A' ≤ c ∧ c ≤ 'F' then some (c.toNat - 'A'.toNat + 10)
  else none

/-- Parse the body of a JSON string literal after the opening quote. -/
def parseStringBody (fuel : Nat) (cs : List Char) (acc : List Char) :
    Option (String × List Char) :=
  match fuel with
  | 0 => none
  | fuel + 1 =>
    match cs with
    | [] => none
    | c :: rest =>
      if c = '"' then some (String.mk acc.reverse, rest)
      else if c = '\\' then
        match rest with
        | [] => none
        | e :: rest' =>
          if e = '"' then parseStringBody fuel rest' ('"' :: acc)
          else if e = '\\' then parseStringBody fuel rest' ('\\' :: acc)
          else if e = '/' then parseStringBody fuel rest' ('/' :: acc)
          else if e = 'b' then parseStringBody fuel rest' ('\x08' :: acc)
          else if e = 'f' then parseStringBody fuel rest' ('\x0c' :: acc)
          else if e = 'n' then parseStringBody fuel rest' ('\n' :: acc)
          else if e = 'r' then parseStringBody fuel rest' ('\r' :: acc)
          else if e = 't' then parseStringBody fuel rest' ('\t' :: acc)
          else if e = 'u' then
            match rest' with
            | h1 :: h2 :: h3 :: h4 :: rest'' =>
              match hexVal h1, hexVal h2, hexVal h3, hexVal h4 with
              | some a, some b, some c2, some d =>
                parseStringBody fuel rest''
                  (Char.ofNat (((a * 16 + b) * 16 + c2) * 16 + d) :: acc)
              | _, _, _, _ => none
            | _ => none
          else none
      else if c.toNat < 32 then none
      else parseStringBody fuel rest (c :: acc)

/-- Span of leading decimal digits. -/
def spanDigits (cs : List Char) : List Char × List Char :=
  (cs.takeWhile Char.isDigit, cs.dropWhile Char.isDigit)

/-- Parse a JSON number lexeme (`-?int frac? exp?`, no leading zeros). -/
def parseNumberLex (cs : List Char) : Option (List Char × List Char) :=
  let (sign, cs1) :=
    match cs with
    | '-' :: r => ([('-' : Char)], r)
    | _ => (([] : List Char), cs)
  match cs1 with
  | [] => none
  | c :: _ =>
    if ¬ c.isDigit then none
    else
      let (intPart, rest1) :=
        if c = '0' then ([c], cs1.tail)
        else spanDigits cs1
      let (fracPart, rest2) :=
        match rest1 with
        | '.' :: r =>
          let (ds, r') := spanDigits r
          if ds.isEmpty then ([], rest1) else ('.' :: ds, r')
        | _ => ([], rest1)
      let fracOk : Bool :=
        match rest1 with
        | '.' :: r => !(spanDigits r).1.isEmpty
        | _ => true
      let (expPart, rest3, expOk) :=
        match rest2 with
        | e :: r =>
          if e = 'e' ∨ e = 'E' then
            let (esign, r1) :=
              match r with
              | s :: r' => if s = '+' ∨ s = '-' then ([s], r') else ([], r)
              | [] => ([], r)
            let (ds, r2) := spanDigits r1
            if ds.isEmpty then ([], rest2, false)
            else (e :: (esign ++ ds), r2, true)
          else ([], rest2, true)
        | [] => ([], rest2, true)
      if fracOk && expOk then
        some (sign ++ intPart ++ fracPart ++ expPart, rest3)
      else none

mutual
/-- Parse one JSON value. -/
def parseValue : Nat → List Char → Option (Json × List Char)
  | 0, _ => none
  | fuel + 1, cs =>
    let cs := cs.dropWhile isJsWs
    match cs with
    | [] => none
    | c :: rest =>
      if c = '"' then
        (parseStringBody (fuel + 1) rest []).map (fun p => (Json.str p.1, p.2))
      else if c = '\x7b' then
        let body := rest.dropWhile isJsWs
        match body with
        | '\x7d' :: r => some (Json.obj [], r)
        | _ => parseMembers fuel body []
      else if c = '[' then
        let body := rest.dropWhile isJsWs
        match body with
        | ']' :: r => some (Json.arr [], r)
        | _ => parseElems fuel body []
      else if List.isPrefixOf "true".data cs then some (Json.bool true, cs.drop 4)
      else if List.isPrefixOf "false".data cs then some (Json.bool false, cs.drop 5)
      else if List.isPrefixOf "null".data cs then some (Json.null, cs.drop 4)
      else
        (parseNumberLex cs).map (fun p => (Json.num (String.mk p.1), p.2))

/-- Parse the members of a JSON object after `{`. -/
def parseMembers : Nat → List Char → List (String × Json) →
    Option (Json × List Char)
  | 0, _, _ => none
  | fuel + 1, cs, acc =>
    let cs := cs.dropWhile isJsWs
    match cs with
    | '"' :: r =>
      match parseStringBody (fuel + 1) r [] with
      | some (k, r2) =>
        match r2.dropWhile isJsWs with
        | ':' :: r3 =>
          match parseValue fuel r3 with
          | some (v, r4) =>
            match r4.dropWhile isJsWs with
            | ',' :: r5 => parseMembers fuel r5 ((k, v) :: acc)
            | '\x7d' :: r5 => some (Json.obj ((k, v) :: acc).reverse, r5)
            | _ => none
          | none => none
        | _ => none
      | none => none
    | _ => none

/-- Parse the elements of a JSON array after `[`. -/
def parseElems : Nat → List Char → List Json → Option (Json × List Char)
  | 0, _, _ => none
  | fuel + 1, cs, acc =>
    match parseValue fuel cs with
    | some (v, r) =>
      match r.dropWhile isJsWs with
      | ',' :: r2 => parseElems fuel r2 (v :: acc)
      | ']' :: r2 => some (Json.arr (v :: acc).reverse, r2)
      | _ => none
    | none => none
end

/-- `JSON.parse(s)`: parse one value, allow only trailing whitespace.
`none` models a thrown `SyntaxError`. -/
def jsonParse (s : String) : Option Json :=
  match parseValue (2 * s.data.length + 4) s.data with
  | some (v, rest) => if (rest.dropWhile isJsWs).isEmpty then some v else none
  | none => none

/-! ## StreamNormalizer (`processStreamingResponse` / `processLine`)

`processStreamingResponse` decodes each incoming chunk, splits it on
`'\n'`, and hands every non-blank line to `processLine`; on stream end it
emits a final `complete` event carrying the accumulated `fullMessage`.
`processLine` strips an optional `data: ` tag, recognizes the `[DONE]`
sentinel, and otherwise JSON-parses the line, falling back to a growable
per-provider buffer when the parse fails. -/

/-- The per-provider growable string buffers (`const buffers = { openai:
'', google: '', perplexity: '', groq: '', openrouter: '' }`). -/
structure StreamBuffers where
  openai : String
  google : String
  perplexity : String
  groq : String
  openrouter : String
deriving Repr, DecidableEq

/-- The buffers object as freshly created per call. -/
def emptyBuffers : StreamBuffers := ⟨"", "", "", "", ""⟩

/-- JS dynamic read `buffers[provider]` (`''` for an unknown provider;
only reachable with `openai`/`openrouter`). -/
def StreamBuffers.read (b : StreamBuffers) (provider : String) : String :=
  if provider = "openai" then b.openai
  else if provider = "google" then b.google
  else if provider = "perplexity" then b.perplexity
  else if provider = "groq" then b.groq
  else if provider = "openrouter" then b.openrouter
  else ""

/-- JS dynamic write `buffers[provider] = v`. -/
def StreamBuffers.write (b : StreamBuffers) (provider : String) (v : String) :
    StreamBuffers :=
  if provider = "openai" then { b with openai := v }
  else if provider = "google" then { b with google := v }
  else if provider = "perplexity" then { b with perplexity := v }
  else if provider = "groq" then { b with groq := v }
  else if provider = "openrouter" then { b with openrouter := v }
  else b

/-- An event pushed through `sendSSE` by the streaming pipeline. -/
inductive SSEvent where
  | contentDelta (provider : String) (content : Json)
  | sentinelComplete (message : String)
  | endComplete (message : String) (fullMessage : String)
deriving Repr

/-- The incremental-content path `parsedData.choices?.[0]?.delta?.content`. -/
def deltaContentPath (parsedData : Json) : Option Json :=
  (((parsedData.getField "choices").bind (fun j => j.getIndex 0)).bind
    (fun j => j.getField "delta")).bind (fun j => j.getField "content")

/-- Shared tail of both parse branches: `const content = ... || ''` and
`if(content) { sendSSE(...); contentChunk = content }`. -/
def emitContent (provider : String) (buffers : StreamBuffers)
    (content : Option Json) : StreamBuffers × List SSEvent × Option Json :=
  match content with
  | some j =>
    if jsTruthy j then (buffers, [SSEvent.contentDelta provider j], some j)
    else (buffers, [], none)
  | none => (buffers, [], none)

/-- `const actualLine = line.startsWith(dataPfx) ? line.substring(6) : line`
with `dataPfx = 'data: '`. -/
def stripDataTag (line : List Char) : List Char :=
  if List.isPrefixOf "data: ".data line then line.drop 6 else line

/-- `processLine(line, provider, buffers, sendSSE)`: returns the updated
buffers, the events sent through `sendSSE`, and the returned
`contentChunk`.  The `google`/`perplexity`/`groq` branches of the source
are empty (commented out) and so emit nothing. -/
def processLine (line : List Char) (provider : String)
    (buffers : StreamBuffers) : StreamBuffers × List SSEvent × Option Json :=
  let actualLine := stripDataTag line
  if String.mk (jsTrim actualLine) = "[DONE]" then
    (buffers, [SSEvent.sentinelComplete "Stream complete"], none)
  else if provider = "openai" ∨ provider = "openrouter" then
    match jsonParse (String.mk actualLine) with
    | some parsedData => emitContent provider buffers (deltaContentPath parsedData)
    | none =>
      let grown := buffers.read provider ++ String.mk actualLine
      match jsonParse grown with
      | some parsedData =>
        emitContent provider (buffers.write provider "") (deltaContentPath parsedData)
      | none => (buffers.write provider grown, [], none)
  else (buffers, [], none)

/-- The running state of one `processStreamingResponse` call: the buffers
object, the accumulated `fullMessage`, and the events sent so far. -/
structure StreamRun where
  buffers : StreamBuffers
  fullMessage : String
  events : List SSEvent

/-- One line of the chunk handler: skip blank lines, otherwise call
`processLine` and append the returned `contentChunk` to `fullMessage`. -/
def runLine (provider : String) (st : StreamRun) (line : List Char) :
    StreamRun :=
  if String.mk (jsTrim line) = "" then st
  else
    let r := processLine line provider st.buffers
    { buffers := r.1
      fullMessage :=
        st.fullMessage ++ (match r.2.2 with | some j => jsToString j | none => "")
      events := st.events ++ r.2.1 }

/-- The `stream.on('data')` handler: split the decoded chunk on newlines
and process every line. -/
def runChunk (provider : String) (st : StreamRun) (chunkStr : String) :
    StreamRun :=
  (splitNl chunkStr.data).foldl (runLine provider) st

/-- `processStreamingResponse(stream, provider, sendSSE, onComplete)`,
run over a list of decoded chunks: process every chunk in order, then the
`stream.on('end')` handler sends the final `complete` event with the
accumulated `fullMessage`.  (The `StringDecoder` guarantees that byte
chunks decode to exactly these strings, with an empty remainder at the
end for whole-character splits.)  Returns the full event sequence and the
resolved `fullMessage`. -/
def processStreamingResponse (provider : String) (chunks : List String) :
    List SSEvent × String :=
  let st := chunks.foldl (runChunk provider) ⟨emptyBuffers, "", []⟩
  (st.events ++ [SSEvent.endComplete "Provider finished" st.fullMessage],
   st.fullMessage)

/-- The subsequence of content-delta events of an event sequence. -/
def contentDeltas (events : List SSEvent) : List SSEvent :=
  events.filter fun e =>
    match e with
    | SSEvent.contentDelta _ _ => true
    | _ => false

/-- Count of `complete`-typed events (both the sentinel-triggered one and
the end-of-stream one). -/
def completeCount (events : List SSEvent) : Nat :=
  events.countP fun e =>
    match e with
    | SSEvent.sentinelComplete _ => true
    | SSEvent.endComplete _ _ => true
    | _ => false

/-- Count of end-of-stream `complete` events only. -/
def endCompleteCount (events : List SSEvent) : Nat :=
  events.countP fun e =>
    match e with
    | SSEvent.endComplete _ _ => true
    | _ => false

/-! ## ToolExecutionEngine (`executeToolCalls`)

Tool definitions in the source have the OpenAI shape
`{ type: 'function', function: { name, parameters, ... }, executor }`;
the lookup key is `t.function.name` and the executor is an optional
function that may throw.  Argument strings go through `JSON.parse`, then
ambient project-id injection, then the executor; every failure is
recorded in that call's own result entry. -/

/-- The `function` member of a model-emitted tool call: a name and the
raw argument payload. -/
structure FuncCall where
  name : String
  argumentsStr : String
deriving Repr, DecidableEq

/-- A model-emitted tool call.  `none` models a call object without a
`function` property, whose destructuring throws into the outer catch. -/
structure ToolCall where
  function : Option FuncCall
deriving Repr, DecidableEq

/-- The ambient context passed to `executeToolCalls`; the code only ever
reads `context.idProject`. -/
structure ToolContext where
  idProject : Option String
deriving Repr, DecidableEq

/-- Truthiness of an optional JS string (absent, `null` and `''` falsy). -/
def optStrTruthy : Option String → Bool
  | some s => s ≠ ""
  | none => false

/-- Outcome of invoking an executor: a result, or a thrown error. -/
inductive ExecOutcome where
  | ok (result : Json)
  | exn (message : String)

/-- A registered tool definition: its `function.name` and its optional
`executor` function. -/
structure ToolDef where
  fname : String
  executor : Option (Json → Option ToolContext → ExecOutcome)

/-- The `arguments` component of a result entry: the raw string, the
parsed (and possibly injected) object, or absent (`call.function?.
arguments` on a call without a `function`). -/
inductive ResultArgs where
  | raw (s : String)
  | parsed (j : Json)
  | missing
deriving Repr

/-- One entry of the list returned by `executeToolCalls`. -/
structure ToolResult where
  name : String
  status : String
  error : Option String := none
  result : Option Json := none
  arguments : ResultArgs
deriving Repr

/-- JS property read `o.k` inside the injection block: reading a property
of `null` throws a `TypeError` (modelled as `Except.error`); reads on
other non-objects yield `undefined`. -/
def jsReadProp (j : Json) (k : String) : Except Unit (Option Json) :=
  match j with
  | .null => .error ()
  | .obj fields => .ok (lookupLast fields k)
  | _ => .ok none

/-- JS property write `o.k = v`: replaces the field on objects and is a
silent no-op on other values (non-strict mode). -/
def jsWriteProp (j : Json) (k : String) (v : Json) : Json :=
  match j with
  | .obj fields =>
    if (lookupLast fields k).isSome then
      .obj (fields.map (fun p => if p.1 = k then (k, v) else p))
    else .obj (fields ++ [(k, v)])
  | _ => j

/-- Is an optional property value falsy (`!args.x`)? -/
def jsFieldFalsy (o : Option Json) : Bool :=
  match o with
  | some j => !jsTruthy j
  | none => true

/-- The project-id injection block run after a successful `JSON.parse` of
the arguments (source lines 563-575); a thrown `TypeError` lands in the
same catch as a parse failure. -/
def injectProjectContext (name : String) (ctx : ToolContext) (args0 : Json) :
    Except Unit Json := do
  let args1 ←
    if name = "createFoundryProject" then do
      let idProj ← jsReadProp args0 "idProject"
      if jsFieldFalsy idProj && optStrTruthy ctx.idProject then
        pure (jsWriteProp
          (jsWriteProp args0 "idProject" (Json.str (ctx.idProject.getD "")))
          "updateExisting" (Json.bool true))
      else pure args0
    else pure args0
  if name = "createSmartContract" ∨ name = "compileFoundryProject" ∨
      name = "deployToMantleTestnet" ∨ name = "runFoundryTests" then
    if optStrTruthy ctx.idProject then do
      let pid ← jsReadProp args1 "projectId"
      if jsFieldFalsy pid then
        pure (jsWriteProp args1 "projectId" (Json.str (ctx.idProject.getD "")))
      else pure args1
    else pure args1
  else pure args1

/-- The body of the `for(const call of toolCalls)` loop for one call:
look up the definition, parse and inject arguments, check for an
executor, run it, and build this call's single result entry.  Every
failure path, including the outer catch, pushes exactly one entry. -/
def processToolCall (availableTools : List ToolDef)
    (context : Option ToolContext) (call : ToolCall) : ToolResult :=
  match call.function with
  | none =>
    { name := "unknown", status := "error",
      error := some "Cannot destructure property", arguments := .missing }
  | some func =>
    match availableTools.find? (fun t => t.fname = func.name) with
    | none =>
      { name := func.name, status := "error", error := some "Tool not found",
        arguments := .raw func.argumentsStr }
    | some toolDef =>
      let parsedArgs : Except Unit Json :=
        match jsonParse func.argumentsStr with
        | none => .error ()
        | some a =>
          match context with
          | none => .ok a
          | some ctx => injectProjectContext func.name ctx a
      match parsedArgs with
      | .error _ =>
        { name := func.name, status := "error",
          error := some "Invalid arguments format",
          arguments := .raw func.argumentsStr }
      | .ok args =>
        match toolDef.executor with
        | none =>
          { name := func.name, status := "error",
            error := some "Tool has no executor", arguments := .parsed args }
        | some run =>
          match run args context with
          | .ok r =>
            { name := func.name, status := "success", result := some r,
              arguments := .parsed args }
          | .exn m =>
            { name := func.name, status := "error", error := some m,
              arguments := .raw func.argumentsStr }

/-- `executeToolCalls(toolCalls, availableTools, context)`: the loop
pushes one result entry per call into `results`, in input order. -/
def executeToolCalls (toolCalls : List ToolCall)
    (availableTools : List ToolDef) (context : Option ToolContext) :
    List ToolResult :=
  toolCalls.foldl
    (fun results call => results ++ [processToolCall availableTools context call])
    []

/-! ## ContextUpdater (`extractContext`) and the context merge

`extractContext` makes a secondary `sendMessage` call with JSON response
format; its whole body sits in a `try` whose `catch` returns `{}`.  The
callers merge the returned updates into the current context with a
spread: `{ ...context, ...contextResponse }` in `sendMessage`, and
`{ ...context, ...updatedContext }` in `handleAiMessage`. -/

/-- `extractContext(prompt, response, currentContext)`.  The secondary
model call is abstracted by its outcome `secondaryCall` (an `error` is a
provider failure thrown by the inner `sendMessage`); `prompt`, `response`
and `currentContext` only feed the request of that call.  On any failure
the catch returns `{}`. -/
def extractContext (secondaryCall : Except String Json)
    (prompt response : String) (currentContext : Json) : Json :=
  match secondaryCall with
  | .error _ => Json.obj []
  | .ok result =>
    let content :=
      (((result.getField "choices").bind (fun j => j.getIndex 0)).bind
        (fun j => j.getField "message")).bind (fun j => j.getField "content")
    let contextUpdates : String :=
      match content with
      | some j => if jsTruthy j then jsToString j else "\x7b\x7d"
      | none => "\x7b\x7d"
    match jsonParse contextUpdates with
    | some parsedContext => parsedContext
    | none => Json.obj []

/-- The JS object spread `{ ...base, ...updates }` on field lists: keys
of `base` keep their position but take the value from `updates` when
present there; keys only in `updates` are appended in order. -/
def spreadMerge (base updates : List (String × Json)) :
    List (String × Json) :=
  base.map (fun p => (p.1, (lookupLast updates p.1).getD p.2)) ++
    updates.filter (fun q => (lookupLast base q.1).isNone)

/-! ## TokenBudgeter (`estimateTokens` / `adjustContent`) -/

/-- A chat message as assembled by the service (`{ role, content }`). -/
structure ChatMessage where
  role : String
  content : String
deriving Repr, DecidableEq

/-- `estimateTokens(messages)`.  The primary path delegates to
`promptTokensEstimate` from the external `openai-chat-tokens` package
(not part of this repository), abstracted as `primaryEstimator`; when it
throws (`none`), the catch falls back to the repository's own estimate
`Math.ceil(charCount / 4)` over the message contents. -/
def estimateTokens (primaryEstimator : Option (List ChatMessage → Nat))
    (messages : List ChatMessage) : Nat :=
  match primaryEstimator with
  | some est => est messages
  | none =>
    let charCount := messages.foldl (fun acc msg => acc + msg.content.length) 0
    (charCount + 3) / 4

/-- The `messagesForEstimation` array: system message, history, then the
user prompt. -/
def msgsFor (system : String) (history : List ChatMessage) (prompt : String) :
    List ChatMessage :=
  { role := "system", content := system } ::
    (history ++ [{ role := "user", content := prompt }])

/-- `str.substring(0, n)`. -/
def strTake (s : String) (n : Nat) : String := String.mk (s.data.take n)

/-- The trimming loop `while(currentTokens > targetTokens &&
history.length > 0) history.shift()`, re-estimating after each removal of
the oldest entry. -/
def trimOldest (estFn : List ChatMessage → Nat) (target : Int)
    (system prompt : String) : List ChatMessage → List ChatMessage
  | [] => []
  | h :: t =>
    if target < (estFn (msgsFor system (h :: t) prompt) : Int) then
      trimOldest estFn target system prompt t
    else h :: t

/-- The system-prompt trimming step: when the estimate still exceeds the
target and the system prompt is longer than 200 characters, cut its tail
by `min(overage*4, length-100)` characters (keeping at least the
100-character floor). -/
def systemTrimmed (estFn : List ChatMessage → Nat) (target : Int)
    (system : String) (history : List ChatMessage) (prompt : String) :
    String :=
  let currentTokens := estFn (msgsFor system history prompt)
  if target < (currentTokens : Int) ∧ 200 < system.length then
    let trimLength : Int :=
      min (((currentTokens : Int) - target) * 4) ((system.length : Int) - 100)
    if 0 < trimLength then strTake system (system.length - trimLength.toNat)
    else system
  else system

/-- The final user-prompt trimming step, same rule as the system step;
the source does not re-estimate afterwards. -/
def promptTrimmed (estFn : List ChatMessage → Nat) (target : Int)
    (system : String) (history : List ChatMessage) (prompt : String) :
    String :=
  let currentTokens := estFn (msgsFor system history prompt)
  if target < (currentTokens : Int) ∧ 200 < prompt.length then
    let trimLength : Int :=
      min (((currentTokens : Int) - target) * 4) ((prompt.length : Int) - 100)
    if 0 < trimLength then strTake prompt (prompt.length - trimLength.toNat)
    else prompt
  else prompt

/-- The adjusted `{ system, history, prompt }` triple. -/
structure AdjustedContent where
  system : String
  history : List ChatMessage
  prompt : String
deriving Repr, DecidableEq

/-- `adjustContent(system, history, prompt, contextWindow)`: target is
`contextWindow - 50`; return unchanged when the estimate already fits,
otherwise trim history oldest-first, then the system prompt, then the
user prompt.  The source updates `currentTokens` in place after each
stage; here each stage recomputes the identical estimate.  The function
throws nowhere (it is total). -/
def adjustContent (primaryEstimator : Option (List ChatMessage → Nat))
    (system : String) (history : List ChatMessage) (prompt : String)
    (contextWindow : Nat) : AdjustedContent :=
  let estFn := estimateTokens primaryEstimator
  let targetTokens : Int := (contextWindow : Int) - 50
  if (estFn (msgsFor system history prompt) : Int) ≤ targetTokens then
    { system := system, history := history, prompt := prompt }
  else
    let history2 := trimOldest estFn targetTokens system prompt history
    let system2 := systemTrimmed estFn targetTokens system history2 prompt
    let prompt2 := promptTrimmed estFn targetTokens system2 history2 prompt
    { system := system2, history := history2, prompt := prompt2 }

/-! ## ModelRegistry (`solveModelInfo` over `ai-models.js`)

The five model tables are static data arrays; an entry's fields beyond
`name` and `contextWindow` (features, groups, prices) are not read by
`solveModelInfo` and are omitted.  Credentials come from the environment;
a missing or empty variable is falsy. -/

/-- One entry of a model table. -/
structure AiModel where
  name : String
  contextWindow : Option Nat
deriving Repr, DecidableEq

/-- The five static model tables imported from `ai-models.js`. -/
structure ModelTables where
  openAIModels : List AiModel
  perplexityModels : List AiModel
  groqModels : List AiModel
  openRouterModels : List AiModel
  googleModels : List AiModel

/-- The provider credentials from `process.env`; an unset variable is
modelled by `""` (both are falsy in the `!authToken` check). -/
structure ProviderCreds where
  openaiKey : String
  perplexityKey : String
  groqKey : String
  openRouterKey : String
  googleKey : String

/-- `const allModels = [...openAIModels, ...perplexityModels,
...groqModels, ...openRouterModels, ...googleModels]`. -/
def allModels (t : ModelTables) : List AiModel :=
  t.openAIModels ++ t.perplexityModels ++ t.groqModels ++
    t.openRouterModels ++ t.googleModels

/-- The provider-determination chain: which table (in source order)
contains the model name. -/
def resolvedProvider (t : ModelTables) (model : String) : Option String :=
  if t.openAIModels.any (fun m => m.name = model) then some "openai"
  else if t.perplexityModels.any (fun m => m.name = model) then some "perplexity"
  else if t.groqModels.any (fun m => m.name = model) then some "groq"
  else if t.openRouterModels.any (fun m => m.name = model) then some "openrouter"
  else if t.googleModels.any (fun m => m.name = model) then some "google"
  else none

/-- The environment credential paired with each provider in the chain. -/
def credentialOf (env : ProviderCreds) (provider : String) : String :=
  if provider = "openai" then env.openaiKey
  else if provider = "perplexity" then env.perplexityKey
  else if provider = "groq" then env.groqKey
  else if provider = "openrouter" then env.openRouterKey
  else if provider = "google" then env.googleKey
  else ""

/-- The errors `solveModelInfo` can throw. -/
inductive SolveError where
  | modelNotFound (model : String)
  | providerNotFound (model : String)
  | authTokenNotFound (provider : String)
deriving Repr, DecidableEq

/-- JS `modelInfo.contextWindow || 4096`. -/
def windowOrDefault (cw : Option Nat) : Nat :=
  match cw with
  | some n => if n = 0 then 4096 else n
  | none => 4096

/-- The resolved descriptor `{ ...modelInfo, provider, authToken,
contextWindow }` (the spread's own `contextWindow` key is overwritten by
the defaulted one). -/
structure ModelInfo where
  name : String
  provider : String
  authToken : String
  contextWindow : Nat
deriving Repr, DecidableEq

/-- `solveModelInfo(model)`: find the entry in the concatenated tables,
determine provider and credential by table membership, fail when the
credential is falsy, and return the descriptor.  A pure lookup: it reads
only the static tables and the environment. -/
def solveModelInfo (t : ModelTables) (env : ProviderCreds) (model : String) :
    Except SolveError ModelInfo :=
  match (allModels t).find? (fun m => m.name = model) with
  | none => .error (.modelNotFound model)
  | some modelInfo =>
    match resolvedProvider t model with
    | none => .error (.providerNotFound model)
    | some provider =>
      let authToken := credentialOf env provider
      if authToken = "" then .error (.authTokenNotFound provider)
      else
        .ok { name := modelInfo.name, provider := provider,
              authToken := authToken,
              contextWindow := windowOrDefault modelInfo.contextWindow }

/-! ## `sendMessage` required-field validation -/

/-- The request fields read by the validation prelude of `sendMessage`;
all later-used fields are irrelevant to it. `none` models an absent
field. -/
structure SendMessageData where
  model : Option String
  prompt : Option String
deriving Repr, DecidableEq

/-- Falsiness of an optional string request field. -/
def jsStrFalsy (o : Option String) : Bool :=
  match o with
  | some s => s = ""
  | none => true

/-- The head of `sendMessage`: `if(!model) throw 'Missing field: model';
if(!prompt) throw 'Missing field: prompt'`, before the `try` block that
resolves the model, adjusts content and calls the provider.  Everything
after the two checks is abstracted as `pipeline`, which is reached only
when both checks pass. -/
def sendMessageValidated (data : SendMessageData)
    (pipeline : SendMessageData → Except String Json) : Except String Json :=
  if jsStrFalsy data.model then .error "Missing field: model"
  else if jsStrFalsy data.prompt then .error "Missing field: prompt"
  else pipeline data

/-! ## MessageService.getHistory -/

/-- One persisted message row as read by `getHistory` (its `metas` JSON
carries the optional conversation context). -/
structure MessageRow where
  chatId : Nat
  threadId : Nat
  createdAt : Nat
  role : String
  text : String
  metasContext : Option Json

/-- Does a row carry a truthy `metas.context`? -/
def hasMetaContext (m : MessageRow) : Bool :=
  match m.metasContext with
  | some j => jsTruthy j
  | none => false

/-- The result shape of `getHistory`. -/
structure HistoryResult where
  messages : List ChatMessage
  context : Option Json

/-- The `orderBy: { createdAt: 'desc' }` ordering: newer (or equal) rows
first. -/
def newestFirst (a b : MessageRow) : Prop := b.createdAt ≤ a.createdAt

instance : DecidableRel newestFirst := fun a b => Nat.decLe b.createdAt a.createdAt

instance : IsTotal MessageRow newestFirst :=
  ⟨fun a b => le_total b.createdAt a.createdAt⟩

instance : IsTrans MessageRow newestFirst :=
  ⟨fun _ _ _ h1 h2 => le_trans h2 h1⟩

/-- The Prisma query: rows of the chat/thread ordered by `createdAt`
descending (a stable sort on the stored order), limited to 20
(`take: 20`). -/
def fetchedRows (db : List MessageRow) (chatId threadId : Nat) :
    List MessageRow :=
  ((db.filter (fun m => m.chatId = chatId && m.threadId = threadId)).insertionSort
    newestFirst).take 20

/-- The rows after `messages.reverse()` (oldest first), which is also the
order the result list is mapped from. -/
def chronologicalRows (db : List MessageRow) (chatId threadId : Nat) :
    List MessageRow :=
  (fetchedRows db chatId threadId).reverse

/-- `MessageService.getHistory(chatId, threadId)`: fetch the newest 20
rows, reverse in place, pick the first reversed row with a truthy
`metas.context`, and map the reversed rows to `{ role, content }`. -/
def getHistory (db : List MessageRow) (chatId threadId : Nat) :
    HistoryResult :=
  let messages := chronologicalRows db chatId threadId
  let lastMessageWithMeta := messages.find? hasMetaContext
  { messages := messages.map (fun m => { role := m.role, content := m.text })
    context :=
      match lastMessageWithMeta with
      | some m => m.metasContext
      | none => none }

/-! ## Shared lemmas -/

/-- Folding a push loop (`results.push(f x)`) is mapping. -/
theorem foldl_push_eq_map {α β : Type} (f : α → β) (l : List α)
    (init : List β) :
    l.foldl (fun acc x => acc ++ [f x]) init = init ++ l.map f := by
  induction l generalizing init with
  | nil => simp
  | cons a t ih => simp [List.foldl_cons, ih]

/-- The result list of `executeToolCalls` is the input list mapped
through the per-call body. -/
theorem executeToolCalls_eq_map (calls : List ToolCall)
    (tools : List ToolDef) (context : Option ToolContext) :
    executeToolCalls calls tools context =
      calls.map (processToolCall tools context) := by
  simpa using foldl_push_eq_map (processToolCall tools context) calls []

/-! ## C9 — `sendMessage` required-field validation -/

/-- C9: for every request, a falsy `model` field makes `sendMessage`
throw `'Missing field: model'`, and a present `model` with a falsy
`prompt` makes it throw `'Missing field: prompt'`; in both cases the rest
of the pipeline (model resolution, budgeting, provider call) is never
consulted — the result is this error for every possible pipeline. -/
theorem sendMessage_missing_field_checks :
    ∀ (data : SendMessageData)
      (pipeline : SendMessageData → Except String Json),
      (jsStrFalsy data.model = true →
        sendMessageValidated data pipeline = .error "Missing field: model")
      ∧ (jsStrFalsy data.model = false → jsStrFalsy data.prompt = true →
        sendMessageValidated data pipeline =
          .error "Missing field: prompt") := by
  intro data pipeline
  constructor
  · intro h
    simp [sendMessageValidated, h]
  · intro h1 h2
    simp [sendMessageValidated, h1, h2]

/-- C9 witness: an absent `model` and an absent `prompt` at concrete
requests. -/
theorem sendMessage_missing_field_checks_witness :
    sendMessageValidated ⟨none, some "hello"⟩ (fun _ => .ok Json.null) =
      .error "Missing field: model"
    ∧ sendMessageValidated ⟨some "gpt-4.1-nano", none⟩
        (fun _ => .ok Json.null) = .error "Missing field: prompt" :=
  ⟨(sendMessage_missing_field_checks ⟨none, some "hello"⟩
      (fun _ => .ok Json.null)).1 rfl,
   (sendMessage_missing_field_checks ⟨some "gpt-4.1-nano", none⟩
      (fun _ => .ok Json.null)).2 rfl rfl⟩

/-! ## C3 — `executeToolCalls` per-call isolation -/

/-- C3: `executeToolCalls` returns exactly one result per input call, in
input order; entry `i` is a function of call `i` alone (so no call's
failure can abort or alter any other call), and a call whose name has no
registered tool yields the `Tool not found` error entry at its own
position. -/
theorem executeToolCalls_per_call_isolation :
    ∀ (calls : List ToolCall) (tools : List ToolDef)
      (context : Option ToolContext),
      (executeToolCalls calls tools context).length = calls.length
      ∧ (∀ i : Nat, (executeToolCalls calls tools context)[i]? =
          (calls[i]?).map (processToolCall tools context))
      ∧ (∀ (i : Nat) (fc : FuncCall),
          calls[i]? = some ⟨some fc⟩ →
          tools.find? (fun t => t.fname = fc.name) = none →
          (executeToolCalls calls tools context)[i]? =
            some { name := fc.name, status := "error",
                   error := some "Tool not found",
                   arguments := ResultArgs.raw fc.argumentsStr }) := by
  intro calls tools context
  rw [executeToolCalls_eq_map]
  refine ⟨by simp, by intro i; simp, ?_⟩
  intro i fc hget hfind
  simp only [List.getElem?_map, hget, Option.map_some']
  simp [processToolCall, hfind]

/-- C3 witness: an unregistered call followed by a registered one; the
first yields its own `Tool not found` entry and the output has one entry
per call. -/
theorem executeToolCalls_per_call_isolation_witness :
    (executeToolCalls
        [⟨some ⟨"foo", "\x7b\x7d"⟩⟩,
         ⟨some ⟨"webSearch", "\x7b\"query\":\"x\"\x7d"⟩⟩]
        [⟨"webSearch", some (fun _ _ => ExecOutcome.ok (Json.str "ok"))⟩]
        none).length = 2
    ∧ (executeToolCalls
        [⟨some ⟨"foo", "\x7b\x7d"⟩⟩,
         ⟨some ⟨"webSearch", "\x7b\"query\":\"x\"\x7d"⟩⟩]
        [⟨"webSearch", some (fun _ _ => ExecOutcome.ok (Json.str "ok"))⟩]
        none)[0]? =
        some { name := "foo", status := "error",
               error := some "Tool not found",
               arguments := ResultArgs.raw "\x7b\x7d" } :=
  ⟨((executeToolCalls_per_call_isolation
      [⟨some ⟨"foo", "\x7b\x7d"⟩⟩,
       ⟨some ⟨"webSearch", "\x7b\"query\":\"x\"\x7d"⟩⟩]
      [⟨"webSearch", some (fun _ _ => ExecOutcome.ok (Json.str "ok"))⟩]
      none).1).trans rfl,
   (executeToolCalls_per_call_isolation
      [⟨some ⟨"foo", "\x7b\x7d"⟩⟩,
       ⟨some ⟨"webSearch", "\x7b\"query\":\"x\"\x7d"⟩⟩]
      [⟨"webSearch", some (fun _ _ => ExecOutcome.ok (Json.str "ok"))⟩]
      none).2.2 0 ⟨"foo", "\x7b\x7d"⟩ rfl rfl⟩

/-! ## C6 — history trimming removes a prefix of oldest entries only -/

/-- The trimming loop always returns a suffix of its input. -/
theorem trimOldest_is_drop (estFn : List ChatMessage → Nat) (target : Int)
    (system prompt : String) (history : List ChatMessage) :
    ∃ k, trimOldest estFn target system prompt history = history.drop k := by
  induction history with
  | nil => exact ⟨0, rfl⟩
  | cons h t ih =>
    by_cases hc : target < (estFn (msgsFor system (h :: t) prompt) : Int)
    · obtain ⟨k, hk⟩ := ih
      exact ⟨k + 1, by simpa [trimOldest, hc] using hk⟩
    · exact ⟨0, by simp [trimOldest, hc]⟩

/-- C6: the history returned by `adjustContent` is a suffix of the input
history — some number of oldest entries are dropped (one at a time,
oldest first) and the remaining entries keep their original relative
order. -/
theorem adjustContent_history_is_suffix :
    ∀ (primaryEstimator : Option (List ChatMessage → Nat))
      (system : String) (history : List ChatMessage) (prompt : String)
      (contextWindow : Nat),
      ∃ k, (adjustContent primaryEstimator system history prompt
              contextWindow).history = history.drop k := by
  intro pe s h p w
  by_cases hc :
      (estimateTokens pe (msgsFor s h p) : Int) ≤ (w : Int) - 50
  · exact ⟨0, by simp [adjustContent, hc]⟩
  · obtain ⟨k, hk⟩ :=
      trimOldest_is_drop (estimateTokens pe) ((w : Int) - 50) s p h
    exact ⟨k, by simp [adjustContent, hc, hk]⟩

/-! ## C4 — ContextUpdater failure behaviour -/

/-- Mapping each field value leaves lookup results mapped. -/
theorem lookupLast_map_value (g : String → Json → Json)
    (fields : List (String × Json)) (k : String) :
    lookupLast (fields.map (fun p => (p.1, g p.1 p.2))) k =
      match lookupLast fields k with
      | some v => some (g k v)
      | none => none := by
  induction fields with
  | nil => rfl
  | cons q rest ih =>
    obtain ⟨k', v⟩ := q
    simp only [List.map_cons, lookupLast, ih]
    cases hrest : lookupLast rest k with
    | some r => simp
    | none =>
      by_cases hk : k' = k
      · subst hk; simp
      · simp [hk]

/-- A spread with no updates leaves the base object unchanged. -/
theorem spreadMerge_nil_updates (base : List (String × Json)) :
    spreadMerge base [] = base := by
  unfold spreadMerge
  simp only [List.filter_nil, List.append_nil]
  induction base with
  | nil => rfl
  | cons p rest ih => simp [lookupLast, ih]

/-- C4 counterexample: on a provider failure of its secondary model call,
`extractContext` does not return the input context unchanged — it returns
the empty object `{}`, which is not deep-equal to a non-empty input
context. -/
theorem extractContext_failure_counterexample :
    extractContext (Except.error "provider unreachable") "What is my name?"
        "" (Json.obj [("userName", Json.str "Ada")]) = Json.obj []
    ∧ Json.obj [] ≠ Json.obj [("userName", Json.str "Ada")] := by
  refine ⟨rfl, ?_⟩
  intro h
  injection h with h'
  exact absurd h' (by simp)

/-- C4 amended: on any failure of the secondary call, `extractContext`
returns the empty update object `{}` without raising (the failure is
swallowed by its catch), and the caller's spread-merge of an empty update
object leaves the conversation context unchanged. -/
theorem extractContext_failure_soft :
    ∀ (e prompt response : String) (ctx : Json)
      (base : List (String × Json)),
      extractContext (Except.error e) prompt response ctx = Json.obj []
      ∧ spreadMerge base [] = base := by
  intro e prompt response ctx base
  exact ⟨rfl, spreadMerge_nil_updates base⟩

/-! ## C7 — the context merge replaces, rather than extends, values -/

/-- Lookup distributes over list append, preferring the later part. -/
theorem lookupLast_append (xs ys : List (String × Json)) (k : String) :
    lookupLast (xs ++ ys) k =
      match lookupLast ys k with
      | some v => some v
      | none => lookupLast xs k := by
  induction xs with
  | nil =>
    cases h : lookupLast ys k <;> simp [lookupLast, h]
  | cons q rest ih =>
    obtain ⟨k', v⟩ := q
    show (match lookupLast (rest ++ ys) k with
          | some r => some r
          | none => if k' = k then some v else none) = _
    rw [ih]
    cases h : lookupLast ys k <;> rfl

/-- Filtering by a key-only predicate that holds on key `k` preserves
lookups of `k`. -/
theorem lookupLast_filter_pos (p : String → Bool)
    (fields : List (String × Json)) (k : String) (hp : p k = true) :
    lookupLast (fields.filter (fun q => p q.1)) k = lookupLast fields k := by
  induction fields with
  | nil => rfl
  | cons q rest ih =>
    obtain ⟨k', v⟩ := q
    by_cases hq : p k' = true
    · have hfil : ((k', v) :: rest).filter (fun q => p q.1) =
          (k', v) :: rest.filter (fun q => p q.1) := by
        simp [List.filter_cons, hq]
      rw [hfil]
      show (match lookupLast (rest.filter (fun q => p q.1)) k with
            | some r => some r
            | none => if k' = k then some v else none) = _
      rw [ih]
      rfl
    · have hne : k' ≠ k := fun h => hq (h ▸ hp)
      have hfil : ((k', v) :: rest).filter (fun q => p q.1) =
          rest.filter (fun q => p q.1) := by
        simp [List.filter_cons, hq]
      rw [hfil, ih]
      cases h2 : lookupLast rest k with
      | some r => simp [lookupLast, h2]
      | none => simp [lookupLast, h2, hne]

/-- Filtering by a key-only predicate that fails on key `k` removes every
`k` entry. -/
theorem lookupLast_filter_neg (p : String → Bool)
    (fields : List (String × Json)) (k : String) (hp : p k = false) :
    lookupLast (fields.filter (fun q => p q.1)) k = none := by
  induction fields with
  | nil => rfl
  | cons q rest ih =>
    obtain ⟨k', v⟩ := q
    by_cases hq : p k' = true
    · have hne : k' ≠ k := fun h => by rw [h, hp] at hq; exact absurd hq (by simp)
      have hfil : ((k', v) :: rest).filter (fun q => p q.1) =
          (k', v) :: rest.filter (fun q => p q.1) := by
        simp [List.filter_cons, hq]
      rw [hfil]
      show (match lookupLast (rest.filter (fun q => p q.1)) k with
            | some r => some r
            | none => if k' = k then some v else none) = none
      rw [ih, if_neg hne]
    · have hfil : ((k', v) :: rest).filter (fun q => p q.1) =
          rest.filter (fun q => p q.1) := by
        simp [List.filter_cons, hq]
      rw [hfil, ih]

/-- C7 counterexample: merging extracted facts into the current context
with the object spread `{ ...context, ...updates }` replaces an existing
key's value outright with the new value — the old value is not extended
(it does not even occur inside the merged value). -/
theorem spreadMerge_replaces_counterexample :
    lookupLast (spreadMerge [("favoriteColor", Json.str "blue")]
        [("favoriteColor", Json.str "green")]) "favoriteColor" =
      some (Json.str "green")
    ∧ Json.str "green" ≠ Json.str "blue"
    ∧ containsSeq "blue".data "green".data = false := by
  refine ⟨rfl, ?_, rfl⟩
  intro h
  injection h with h'
  exact absurd h' (by decide)

/-- C7 amended: the context update is a shallow object spread — a key
absent from the current context is added, and a key present in both takes
the newly extracted value (replacing the old one outright; any
"extension" of existing values is delegated to the extraction prompt,
not enforced by the merge). -/
theorem spreadMerge_lookup_characterization :
    ∀ (base updates : List (String × Json)) (k : String),
      lookupLast (spreadMerge base updates) k =
        match lookupLast updates k with
        | some v => some v
        | none => lookupLast base k := by
  intro base updates k
  unfold spreadMerge
  rw [lookupLast_append]
  cases hu : lookupLast updates k with
  | some v =>
    cases hb : lookupLast base k with
    | some w =>
      rw [lookupLast_filter_neg (fun key => (lookupLast base key).isNone) updates k
        (by simp [hb])]
      rw [lookupLast_map_value (fun key val => (lookupLast updates key).getD val) base k]
      simp [hb, hu]
    | none =>
      rw [lookupLast_filter_pos (fun key => (lookupLast base key).isNone) updates k
        (by simp [hb])]
      simp [hu]
  | none =>
    cases hb : lookupLast base k with
    | some w =>
      rw [lookupLast_filter_neg (fun key => (lookupLast base key).isNone) updates k
        (by simp [hb])]
      rw [lookupLast_map_value (fun key val => (lookupLast updates key).getD val) base k]
      simp [hb, hu]
    | none =>
      rw [lookupLast_filter_pos (fun key => (lookupLast base key).isNone) updates k
        (by simp [hb])]
      rw [lookupLast_map_value (fun key val => (lookupLast updates key).getD val) base k]
      simp [hb, hu]

/-! ## C1 — chunk-boundary invariance of the stream parser -/

/-- A well-formed OpenAI stream line carrying the content delta `"hi"`. -/
def oneDeltaLine : String :=
  "data: \x7b\"choices\":[\x7b\"delta\":\x7b\"content\":\"hi\"\x7d\x7d]\x7d\n"

/-- The same bytes split after the second byte, inside the `data: ` tag. -/
def oneDeltaFirstChunk : String := "da"

/-- The remainder of `oneDeltaLine` after the first two bytes. -/
def oneDeltaSecondChunk : String :=
  "ta: \x7b\"choices\":[\x7b\"delta\":\x7b\"content\":\"hi\"\x7d\x7d]\x7d\n"

/-- C1 fails on the code: delivering `oneDeltaLine` as one chunk emits
one content-delta event, while delivering the very same byte sequence
split after two bytes (inside the `data: ` tag) emits none — the first
fragment misses the tag-stripping test, so the recovery buffer
accumulates the literal text `data: {...}`, which never parses as JSON
and the delta is lost. -/
theorem processStreamingResponse_chunk_split_divergence :
    oneDeltaFirstChunk ++ oneDeltaSecondChunk = oneDeltaLine
    ∧ contentDeltas (processStreamingResponse "openai" [oneDeltaLine]).1 =
        [SSEvent.contentDelta "openai" (Json.str "hi")]
    ∧ contentDeltas (processStreamingResponse "openai"
        [oneDeltaFirstChunk, oneDeltaSecondChunk]).1 = [] :=
  ⟨rfl, rfl, rfl⟩

/-! ## C2 — events around the `[DONE]` sentinel -/

/-- One chunk holding a content line, the `[DONE]` sentinel, and another
content line after the sentinel. -/
def afterDoneChunk : String :=
  "data: \x7b\"choices\":[\x7b\"delta\":\x7b\"content\":\"a\"\x7d\x7d]\x7d\n" ++
  "data: [DONE]\n" ++
  "data: \x7b\"choices\":[\x7b\"delta\":\x7b\"content\":\"b\"\x7d\x7d]\x7d\n"

/-- C2 fails on the code: a stream whose data continues past `[DONE]`
still emits a content delta after the sentinel (the parser keeps no
stopped state), and the stream fires two `complete` events — one from the
sentinel line and one from the end-of-stream handler. -/
theorem stream_after_done_counterexample :
    (processStreamingResponse "openai" [afterDoneChunk]).1 =
      [SSEvent.contentDelta "openai" (Json.str "a"),
       SSEvent.sentinelComplete "Stream complete",
       SSEvent.contentDelta "openai" (Json.str "b"),
       SSEvent.endComplete "Provider finished" "ab"]
    ∧ completeCount (processStreamingResponse "openai" [afterDoneChunk]).1 = 2 :=
  ⟨rfl, rfl⟩

/-- `emitContent` emits at most one content-delta event, never the
end-of-stream complete. -/
theorem emitContent_no_endComplete (provider : String)
    (buffers : StreamBuffers) (content : Option Json) :
    endCompleteCount (emitContent provider buffers content).2.1 = 0 := by
  unfold emitContent
  cases content with
  | none => rfl
  | some j => by_cases h : jsTruthy j = true <;> simp [h, endCompleteCount]

/-- `processLine` emits only sentinel-complete or content-delta events,
never the end-of-stream complete. -/
theorem processLine_no_endComplete (line : List Char) (provider : String)
    (buffers : StreamBuffers) :
    endCompleteCount (processLine line provider buffers).2.1 = 0 := by
  simp only [processLine]
  by_cases h1 : String.mk (jsTrim (stripDataTag line)) = "[DONE]"
  · rw [if_pos h1]; rfl
  · rw [if_neg h1]
    by_cases h2 : provider = "openai" ∨ provider = "openrouter"
    · rw [if_pos h2]
      cases h3 : jsonParse (String.mk (stripDataTag line)) with
      | some parsedData =>
        exact emitContent_no_endComplete provider buffers
          (deltaContentPath parsedData)
      | none =>
        cases h4 : jsonParse
            (buffers.read provider ++ String.mk (stripDataTag line)) with
        | some parsedData =>
          exact emitContent_no_endComplete provider (buffers.write provider "")
            (deltaContentPath parsedData)
        | none => rfl
    · rw [if_neg h2]; rfl

/-- Processing lines never adds an end-of-stream complete event. -/
theorem runLine_endComplete (provider : String) (st : StreamRun)
    (line : List Char) :
    endCompleteCount (runLine provider st line).events =
      endCompleteCount st.events := by
  unfold runLine
  split
  · rfl
  · simp only [endCompleteCount, List.countP_append]
    have h := processLine_no_endComplete line provider st.buffers
    simp only [endCompleteCount] at h
    omega

/-- Folding the line handler over any line list adds no end-of-stream
complete event. -/
theorem foldl_runLine_endComplete (provider : String) (lines : List (List Char)) :
    ∀ st : StreamRun,
      endCompleteCount ((lines.foldl (runLine provider) st).events) =
        endCompleteCount st.events := by
  induction lines with
  | nil => intro st; rfl
  | cons l rest ih =>
    intro st
    simp only [List.foldl_cons]
    rw [ih, runLine_endComplete]

/-- Folding the chunk handler over any chunk list adds no end-of-stream
complete event. -/
theorem foldl_runChunk_endComplete (provider : String) (chunks : List String) :
    ∀ st : StreamRun,
      endCompleteCount ((chunks.foldl (runChunk provider) st).events) =
        endCompleteCount st.events := by
  induction chunks with
  | nil => intro st; rfl
  | cons c rest ih =>
    intro st
    simp only [List.foldl_cons]
    rw [ih]
    exact foldl_runLine_endComplete provider (splitNl c.data) st

/-- C2 amended: the `[DONE]` line itself yields a `complete` event and no
content delta, and the end-of-stream handler fires exactly one further
`complete` event per stream; but processing does not stop at the
sentinel, so data lines arriving after `[DONE]` can still emit content
deltas, and a stream containing the sentinel therefore fires two
`complete` events in total. -/
theorem stream_sentinel_and_single_end_complete :
    ∀ (provider : String) (chunks : List String) (line : List Char)
      (buffers : StreamBuffers),
      endCompleteCount (processStreamingResponse provider chunks).1 = 1
      ∧ (String.mk (jsTrim (stripDataTag line)) = "[DONE]" →
          processLine line provider buffers =
            (buffers, [SSEvent.sentinelComplete "Stream complete"], none)) := by
  intro provider chunks line buffers
  constructor
  · unfold processStreamingResponse
    simp only [endCompleteCount, List.countP_append]
    have h := foldl_runChunk_endComplete provider chunks ⟨emptyBuffers, "", []⟩
    simp only [endCompleteCount] at h
    rw [h]
    rfl
  · intro hdone
    unfold processLine
    rw [if_pos hdone]

/-- C2 amended witness: the empty stream fires exactly one end-of-stream
complete, and a concrete `data: [DONE]` line yields exactly the sentinel
complete event with no content. -/
theorem stream_sentinel_single_end_complete_witness :
    endCompleteCount (processStreamingResponse "openai" []).1 = 1
    ∧ processLine "data: [DONE]".data "openai" emptyBuffers =
        (emptyBuffers, [SSEvent.sentinelComplete "Stream complete"], none) :=
  ⟨(stream_sentinel_and_single_end_complete "openai" [] [] emptyBuffers).1,
   (stream_sentinel_and_single_end_complete "openai" [] "data: [DONE]".data
      emptyBuffers).2 rfl⟩

/-! ## C8 — `solveModelInfo` resolution and failure modes -/

/-- A model found in the concatenated tables always has a provider in the
determination chain. -/
theorem resolvedProvider_isSome_of_mem (t : ModelTables) (model : String)
    (mi : AiModel) (hmem : mi ∈ allModels t) (hname : mi.name = model) :
    ∃ provider, resolvedProvider t model = some provider := by
  by_cases h1 : t.openAIModels.any (fun m => m.name = model)
  · exact ⟨"openai", by simp [resolvedProvider, h1]⟩
  by_cases h2 : t.perplexityModels.any (fun m => m.name = model)
  · exact ⟨"perplexity", by simp [resolvedProvider, h1, h2]⟩
  by_cases h3 : t.groqModels.any (fun m => m.name = model)
  · exact ⟨"groq", by simp [resolvedProvider, h1, h2, h3]⟩
  by_cases h4 : t.openRouterModels.any (fun m => m.name = model)
  · exact ⟨"openrouter", by simp [resolvedProvider, h1, h2, h3, h4]⟩
  by_cases h5 : t.googleModels.any (fun m => m.name = model)
  · exact ⟨"google", by simp [resolvedProvider, h1, h2, h3, h4, h5]⟩
  exfalso
  have hmem' := hmem
  unfold allModels at hmem'
  simp only [List.mem_append] at hmem'
  rcases hmem' with (((ha | hb) | hc) | hd) | he
  · exact h1 (List.any_eq_true.mpr ⟨mi, ha, by simp [hname]⟩)
  · exact h2 (List.any_eq_true.mpr ⟨mi, hb, by simp [hname]⟩)
  · exact h3 (List.any_eq_true.mpr ⟨mi, hc, by simp [hname]⟩)
  · exact h4 (List.any_eq_true.mpr ⟨mi, hd, by simp [hname]⟩)
  · exact h5 (List.any_eq_true.mpr ⟨mi, he, by simp [hname]⟩)

/-- C8: `solveModelInfo` fails with the model-not-found error exactly
when the name is absent from the concatenated static tables; when the
name is found, it fails with the missing-credential error exactly when
the resolved provider's environment credential is falsy, and otherwise
returns the model's descriptor carrying that provider, that credential
and the model's (defaulted) context window.  The function is a pure
lookup — its result is determined by the tables, the environment and the
name alone. -/
theorem solveModelInfo_characterization :
    ∀ (t : ModelTables) (env : ProviderCreds) (model : String),
      (solveModelInfo t env model = .error (.modelNotFound model) ↔
        ∀ m ∈ allModels t, m.name ≠ model)
      ∧ (∀ mi, (allModels t).find? (fun m => m.name = model) = some mi →
          ∃ provider, resolvedProvider t model = some provider
            ∧ (credentialOf env provider = "" →
                solveModelInfo t env model =
                  .error (.authTokenNotFound provider))
            ∧ (credentialOf env provider ≠ "" →
                solveModelInfo t env model =
                  .ok { name := mi.name, provider := provider,
                        authToken := credentialOf env provider,
                        contextWindow :=
                          windowOrDefault mi.contextWindow })) := by
  intro t env model
  constructor
  · constructor
    · intro h
      cases hf : (allModels t).find? (fun m => m.name = model) with
      | none =>
        rw [List.find?_eq_none] at hf
        intro m hm
        simpa using hf m hm
      | some mi =>
        exfalso
        have hmem := List.mem_of_find?_eq_some hf
        have hname : mi.name = model := by
          have := List.find?_some hf
          simpa using this
        obtain ⟨p, hp⟩ := resolvedProvider_isSome_of_mem t model mi hmem hname
        unfold solveModelInfo at h
        rw [hf, hp] at h
        dsimp only at h
        by_cases hc : credentialOf env p = ""
        · rw [if_pos hc] at h
          simp at h
        · rw [if_neg hc] at h
          simp at h
    · intro h
      have hf : (allModels t).find? (fun m => m.name = model) = none := by
        rw [List.find?_eq_none]
        intro m hm
        simpa using h m hm
      unfold solveModelInfo
      rw [hf]
  · intro mi hf
    have hmem := List.mem_of_find?_eq_some hf
    have hname : mi.name = model := by
      have := List.find?_some hf
      simpa using this
    obtain ⟨p, hp⟩ := resolvedProvider_isSome_of_mem t model mi hmem hname
    refine ⟨p, hp, ?_, ?_⟩
    · intro hc
      unfold solveModelInfo
      rw [hf, hp]
      dsimp only
      rw [if_pos hc]
    · intro hc
      unfold solveModelInfo
      rw [hf, hp]
      dsimp only
      rw [if_neg hc]

/-- A concrete fragment of the `ai-models.js` tables (entries copied from
the source) with only the OpenAI credential configured. -/
def sampleTables : ModelTables :=
  { openAIModels :=
      [⟨"gpt-4-1106-preview", some 4096⟩, ⟨"chatgpt-4o-latest", some 16384⟩]
    perplexityModels := []
    groqModels := []
    openRouterModels := []
    googleModels := [⟨"gemini-2.0-flash", some 1048576⟩] }

/-- An environment with only `OPENAI_API_KEY` set. -/
def sampleCreds : ProviderCreds := ⟨"sk-test", "", "", "", ""⟩

/-- C8 witness: an unknown name fails as model-not-found, a known OpenAI
model resolves to its descriptor, and a known Google model without a
configured `GOOGLE_API_KEY` fails as missing-credential. -/
theorem solveModelInfo_characterization_witness :
    solveModelInfo sampleTables sampleCreds "mistral-large" =
      .error (.modelNotFound "mistral-large")
    ∧ solveModelInfo sampleTables sampleCreds "gpt-4-1106-preview" =
        .ok { name := "gpt-4-1106-preview", provider := "openai",
              authToken := "sk-test", contextWindow := 4096 }
    ∧ solveModelInfo sampleTables sampleCreds "gemini-2.0-flash" =
        .error (.authTokenNotFound "google") := by
  refine ⟨?_, ?_, ?_⟩
  · exact (solveModelInfo_characterization sampleTables sampleCreds
      "mistral-large").1.mpr (by decide)
  · obtain ⟨p, hp, _, hok⟩ :=
      (solveModelInfo_characterization sampleTables sampleCreds
        "gpt-4-1106-preview").2 ⟨"gpt-4-1106-preview", some 4096⟩ (by decide)
    have hpv : p = "openai" := by
      have : resolvedProvider sampleTables "gpt-4-1106-preview" =
          some "openai" := by decide
      rw [this] at hp
      exact (Option.some.inj hp).symm
    subst hpv
    exact hok (by decide)
  · obtain ⟨p, hp, hmiss, _⟩ :=
      (solveModelInfo_characterization sampleTables sampleCreds
        "gemini-2.0-flash").2 ⟨"gemini-2.0-flash", some 1048576⟩ (by decide)
    have hpv : p = "google" := by
      have : resolvedProvider sampleTables "gemini-2.0-flash" =
          some "google" := by decide
      rw [this] at hp
      exact (Option.some.inj hp).symm
    subst hpv
    exact hmiss (by decide)

/-! ## C10 — `MessageService.getHistory` -/

/-- The matching rows of the chat/thread. -/
def matchingRows (db : List MessageRow) (chatId threadId : Nat) :
    List MessageRow :=
  db.filter (fun m => m.chatId = chatId && m.threadId = threadId)

/-- The full descending-sorted matching rows (before `take: 20`). -/
def sortedRows (db : List MessageRow) (chatId threadId : Nat) :
    List MessageRow :=
  (matchingRows db chatId threadId).insertionSort newestFirst

/-- C10: `getHistory` returns the rows of the chat/thread limited to the
20 most recently created, mapped to `{ role, content }` pairs in
chronological (oldest-first) order; every row left out is no newer than
every returned one; and the result's `context` is the `metas.context` of
the first returned row (in oldest-first order) that carries a truthy one,
or `null` when none does. -/
theorem getHistory_spec :
    ∀ (db : List MessageRow) (chatId threadId : Nat),
      (getHistory db chatId threadId).messages =
        (chronologicalRows db chatId threadId).map
          (fun m => { role := m.role, content := m.text })
      ∧ (getHistory db chatId threadId).messages.length =
          min 20 (matchingRows db chatId threadId).length
      ∧ List.Pairwise (fun a b : MessageRow => a.createdAt ≤ b.createdAt)
          (chronologicalRows db chatId threadId)
      ∧ (∀ m ∈ chronologicalRows db chatId threadId,
          m.chatId = chatId ∧ m.threadId = threadId ∧ m ∈ db)
      ∧ (∀ dropped ∈ (sortedRows db chatId threadId).drop 20,
          ∀ kept ∈ chronologicalRows db chatId threadId,
            dropped.createdAt ≤ kept.createdAt)
      ∧ ((∀ m ∈ chronologicalRows db chatId threadId,
            hasMetaContext m = false) →
          (getHistory db chatId threadId).context = none)
      ∧ (∀ m, (chronologicalRows db chatId threadId).find? hasMetaContext =
            some m →
          (getHistory db chatId threadId).context = m.metasContext) := by
  intro db chatId threadId
  have hsorted : List.Pairwise newestFirst (sortedRows db chatId threadId) :=
    List.sorted_insertionSort newestFirst (matchingRows db chatId threadId)
  have hperm : (sortedRows db chatId threadId).Perm
      (matchingRows db chatId threadId) :=
    List.perm_insertionSort newestFirst (matchingRows db chatId threadId)
  have hchron : chronologicalRows db chatId threadId =
      ((sortedRows db chatId threadId).take 20).reverse := rfl
  refine ⟨rfl, ?_, ?_, ?_, ?_, ?_, ?_⟩
  · show ((chronologicalRows db chatId threadId).map _).length = _
    rw [List.length_map, hchron, List.length_reverse, List.length_take,
      hperm.length_eq]
  · rw [hchron, List.pairwise_reverse]
    have htake : List.Pairwise newestFirst
        ((sortedRows db chatId threadId).take 20) :=
      hsorted.sublist (List.take_sublist 20 _)
    exact htake.imp (fun h => h)
  · intro m hm
    rw [hchron, List.mem_reverse] at hm
    have hm2 : m ∈ sortedRows db chatId threadId :=
      (List.take_sublist 20 _).subset hm
    have hm3 : m ∈ matchingRows db chatId threadId := hperm.subset hm2
    unfold matchingRows at hm3
    rw [List.mem_filter] at hm3
    obtain ⟨hdb, hcond⟩ := hm3
    simp only [Bool.and_eq_true, decide_eq_true_eq] at hcond
    exact ⟨hcond.1, hcond.2, hdb⟩
  · intro dropped hdrop kept hkept
    rw [hchron, List.mem_reverse] at hkept
    have hsplit := hsorted
    rw [← List.take_append_drop 20 (sortedRows db chatId threadId),
      List.pairwise_append] at hsplit
    exact hsplit.2.2 kept hkept dropped hdrop
  · intro hnone
    show (match (chronologicalRows db chatId threadId).find? hasMetaContext
          with
          | some m => m.metasContext
          | none => none) = none
    rw [List.find?_eq_none.mpr (fun m hm => by simp [hnone m hm])]
  · intro m hfind
    show (match (chronologicalRows db chatId threadId).find? hasMetaContext
          with
          | some m => m.metasContext
          | none => none) = m.metasContext
    rw [hfind]

/-- A concrete three-row message store: two rows in chat 1 / thread 1
(the newer one carrying a context) and one row of another chat. -/
def sampleDb : List MessageRow :=
  [⟨1, 1, 10, "user", "hello", none⟩,
   ⟨1, 1, 20, "assistant", "hi",
     some (Json.obj [("favoriteColor", Json.str "blue")])⟩,
   ⟨2, 1, 30, "user", "other chat", none⟩]

/-- C10 witness: on the concrete store, the history is the two matching
rows oldest-first as `{ role, content }` pairs, and the context comes
from the first row (oldest-first) with a truthy `metas.context`. -/
theorem getHistory_spec_witness :
    (getHistory sampleDb 1 1).messages =
      [{ role := "user", content := "hello" },
       { role := "assistant", content := "hi" }]
    ∧ (getHistory sampleDb 1 1).context =
        some (Json.obj [("favoriteColor", Json.str "blue")]) :=
  ⟨((getHistory_spec sampleDb 1 1).1).trans rfl,
   ((getHistory_spec sampleDb 1 1).2.2.2.2.2.2
      ⟨1, 1, 20, "assistant", "hi",
        some (Json.obj [("favoriteColor", Json.str "blue")])⟩ rfl).trans rfl⟩

/-! ## C5 — `adjustContent` meets the budget or hits the floors -/

/-- The character count summed by the fallback estimator. -/
def contentChars (msgs : List ChatMessage) : Nat :=
  msgs.foldl (fun acc msg => acc + msg.content.length) 0

/-- The character-count fold with an arbitrary start value. -/
theorem foldl_contentChars (msgs : List ChatMessage) :
    ∀ n : Nat, msgs.foldl (fun acc msg => acc + msg.content.length) n =
      n + contentChars msgs := by
  induction msgs with
  | nil => intro n; simp [contentChars]
  | cons m rest ih =>
    intro n
    simp only [contentChars, List.foldl_cons] at *
    rw [ih (n + m.content.length), ih (0 + m.content.length)]
    omega

/-- The fallback estimate of an assembled message triple. -/
theorem estimateTokens_fallback (system : String) (history : List ChatMessage)
    (prompt : String) :
    estimateTokens none (msgsFor system history prompt) =
      (system.length + contentChars history + prompt.length + 3) / 4 := by
  show ((msgsFor system history prompt).foldl
      (fun acc msg => acc + msg.content.length) 0 + 3) / 4 = _
  have h : (msgsFor system history prompt).foldl
      (fun acc msg => acc + msg.content.length) 0 =
      system.length + contentChars history + prompt.length := by
    unfold msgsFor
    rw [List.foldl_cons, List.foldl_append, List.foldl_cons, List.foldl_nil,
      foldl_contentChars]
    dsimp only
    omega
  rw [h]

/-- Removing `4*T` characters lowers the `ceil(chars/4)` estimate by
exactly `T`. -/
theorem div4_sub (a T : Nat) (h : 4 * T ≤ a) :
    (a - 4 * T + 3) / 4 = (a + 3) / 4 - T := by
  have h1 : a - 4 * T + 3 = (a + 3) - 4 * T := by omega
  rw [h1, Nat.sub_mul_div (a + 3) 4 T (by omega)]

/-- The removed token count never exceeds the estimate itself. -/
theorem le_div4 (a T : Nat) (h : 4 * T ≤ a) : T ≤ (a + 3) / 4 := by
  rw [Nat.le_div_iff_mul_le (by norm_num)]
  omega

/-- The history-trimming loop either reaches the target or exhausts the
history. -/
theorem trimOldest_fits_or_empty (estFn : List ChatMessage → Nat)
    (target : Int) (system prompt : String) (history : List ChatMessage) :
    (estFn (msgsFor system (trimOldest estFn target system prompt history)
        prompt) : Int) ≤ target
    ∨ trimOldest estFn target system prompt history = [] := by
  induction history with
  | nil => exact Or.inr rfl
  | cons h t ih =>
    by_cases hc : target < (estFn (msgsFor system (h :: t) prompt) : Int)
    · rw [show trimOldest estFn target system prompt (h :: t) =
          trimOldest estFn target system prompt t from by simp [trimOldest, hc]]
      exact ih
    · left
      rw [show trimOldest estFn target system prompt (h :: t) = h :: t from by
        simp [trimOldest, hc]]
      omega

/-- `substring(0, n)` length. -/
theorem strTake_length (s : String) (n : Nat) :
    (strTake s n).length = min n s.length := by
  show (s.data.take n).length = min n s.length
  rw [List.length_take]
  rfl

/-- The system stage does nothing when the estimate already fits. -/
theorem systemTrimmed_of_le (estFn : List ChatMessage → Nat) (target : Int)
    (system : String) (history : List ChatMessage) (prompt : String)
    (h : (estFn (msgsFor system history prompt) : Int) ≤ target) :
    systemTrimmed estFn target system history prompt = system := by
  unfold systemTrimmed
  dsimp only
  rw [if_neg (fun hc => absurd hc.1 (not_lt.mpr h))]

/-- The system stage does nothing below the 200-character threshold. -/
theorem systemTrimmed_of_short (estFn : List ChatMessage → Nat) (target : Int)
    (system : String) (history : List ChatMessage) (prompt : String)
    (h : system.length ≤ 200) :
    systemTrimmed estFn target system history prompt = system := by
  unfold systemTrimmed
  dsimp only
  rw [if_neg (fun hc => absurd hc.2 (not_lt.mpr h))]

/-- The system stage over the target on a long system prompt cuts the
computed tail length. -/
theorem systemTrimmed_of_over (estFn : List ChatMessage → Nat) (target : Int)
    (system : String) (history : List ChatMessage) (prompt : String)
    (hgt : target < (estFn (msgsFor system history prompt) : Int))
    (hlong : 200 < system.length) :
    systemTrimmed estFn target system history prompt =
      strTake system (system.length -
        (min (((estFn (msgsFor system history prompt) : Int) - target) * 4)
          ((system.length : Int) - 100)).toNat) := by
  unfold systemTrimmed
  dsimp only
  rw [if_pos ⟨hgt, hlong⟩, if_pos]
  rw [lt_min_iff]
  constructor <;> omega

/-- The prompt stage does nothing when the estimate already fits. -/
theorem promptTrimmed_of_le (estFn : List ChatMessage → Nat) (target : Int)
    (system : String) (history : List ChatMessage) (prompt : String)
    (h : (estFn (msgsFor system history prompt) : Int) ≤ target) :
    promptTrimmed estFn target system history prompt = prompt := by
  unfold promptTrimmed
  dsimp only
  rw [if_neg (fun hc => absurd hc.1 (not_lt.mpr h))]

/-- The prompt stage does nothing below the 200-character threshold. -/
theorem promptTrimmed_of_short (estFn : List ChatMessage → Nat) (target : Int)
    (system : String) (history : List ChatMessage) (prompt : String)
    (h : prompt.length ≤ 200) :
    promptTrimmed estFn target system history prompt = prompt := by
  unfold promptTrimmed
  dsimp only
  rw [if_neg (fun hc => absurd hc.2 (not_lt.mpr h))]

/-- The prompt stage over the target on a long prompt cuts the computed
tail length. -/
theorem promptTrimmed_of_over (estFn : List ChatMessage → Nat) (target : Int)
    (system : String) (history : List ChatMessage) (prompt : String)
    (hgt : target < (estFn (msgsFor system history prompt) : Int))
    (hlong : 200 < prompt.length) :
    promptTrimmed estFn target system history prompt =
      strTake prompt (prompt.length -
        (min (((estFn (msgsFor system history prompt) : Int) - target) * 4)
          ((prompt.length : Int) - 100)).toNat) := by
  unfold promptTrimmed
  dsimp only
  rw [if_pos ⟨hgt, hlong⟩, if_pos]
  rw [lt_min_iff]
  constructor <;> omega

/-- One tail-trimming step on a string of length `aLen` (the other
content totalling `bLen` characters): the trim either cuts the string
exactly to the 100-character floor, or removes `overage*4` characters and
lands the estimate exactly on the target. -/
theorem trim_step_outcome (aLen bLen : Nat) (T : Int)
    (hgt : T < (((aLen + bLen + 3) / 4 : Nat) : Int))
    (hlong : 200 < aLen) :
    aLen - (min (((((aLen + bLen + 3) / 4 : Nat) : Int) - T) * 4)
        ((aLen : Int) - 100)).toNat = 100
    ∨ ((((aLen - (min (((((aLen + bLen + 3) / 4 : Nat) : Int) - T) * 4)
        ((aLen : Int) - 100)).toNat) + bLen + 3) / 4 : Nat) : Int) = T := by
  set e : Nat := (aLen + bLen + 3) / 4 with he
  by_cases hm : ((e : Int) - T) * 4 ≤ (aLen : Int) - 100
  · right
    rw [min_eq_left hm]
    set TN : Nat := ((e : Int) - T).toNat with hTN
    have htn : (((e : Int) - T) * 4).toNat = 4 * TN := by omega
    rw [htn]
    have hle : 4 * TN ≤ aLen := by omega
    have hdividend : aLen - 4 * TN + bLen + 3 = aLen + bLen - 4 * TN + 3 := by
      omega
    rw [hdividend, div4_sub (aLen + bLen) TN (by omega)]
    have hTNle : TN ≤ (aLen + bLen + 3) / 4 :=
      le_div4 (aLen + bLen) TN (by omega)
    rw [← he] at hTNle
    omega
  · left
    rw [min_eq_right (by omega)]
    omega

/-- The system stage either brings the (recomputed) estimate within the
target or leaves a system prompt of at most 200 characters. -/
theorem system_stage (system prompt : String) (T : Int)
    (hgt : T < (estimateTokens none (msgsFor system [] prompt) : Int)) :
    ((estimateTokens none (msgsFor
        (systemTrimmed (estimateTokens none) T system [] prompt) [] prompt) :
        Int) ≤ T)
    ∨ (systemTrimmed (estimateTokens none) T system [] prompt).length ≤ 200 := by
  by_cases hlong : 200 < system.length
  · rw [systemTrimmed_of_over (estimateTokens none) T system [] prompt hgt hlong]
    have heform : estimateTokens none (msgsFor system [] prompt) =
        (system.length + prompt.length + 3) / 4 := by
      rw [estimateTokens_fallback]
      rw [show system.length + contentChars [] + prompt.length + 3 =
        system.length + prompt.length + 3 from by simp [contentChars]]
    rw [heform] at hgt ⊢
    set trimNat : Nat :=
      (min (((((system.length + prompt.length + 3) / 4 : Nat) : Int) - T) * 4)
        ((system.length : Int) - 100)).toNat with htrim
    have htbound : trimNat ≤ system.length - 100 := by omega
    have hlen : (strTake system (system.length - trimNat)).length =
        system.length - trimNat := by
      rw [strTake_length]
      omega
    rcases trim_step_outcome system.length prompt.length T hgt hlong with
      hfloor | hexact
    · right
      rw [hlen]
      omega
    · left
      rw [estimateTokens_fallback]
      rw [show (strTake system (system.length - trimNat)).length +
          contentChars [] + prompt.length + 3 =
          (system.length - trimNat) + prompt.length + 3 from by
        rw [hlen]; simp [contentChars]]
      exact le_of_eq hexact
  · right
    rw [systemTrimmed_of_short (estimateTokens none) T system [] prompt
      (by omega)]
    omega

/-- The prompt stage either brings the final estimate within the target
or leaves a user prompt of at most 200 characters. -/
theorem prompt_stage (system prompt : String) (T : Int)
    (hgt : T < (estimateTokens none (msgsFor system [] prompt) : Int)) :
    ((estimateTokens none (msgsFor system []
        (promptTrimmed (estimateTokens none) T system [] prompt)) : Int) ≤ T)
    ∨ (promptTrimmed (estimateTokens none) T system [] prompt).length ≤ 200 := by
  by_cases hlong : 200 < prompt.length
  · rw [promptTrimmed_of_over (estimateTokens none) T system [] prompt hgt hlong]
    have heform : estimateTokens none (msgsFor system [] prompt) =
        (prompt.length + system.length + 3) / 4 := by
      rw [estimateTokens_fallback]
      rw [show system.length + contentChars [] + prompt.length + 3 =
        prompt.length + system.length + 3 from by simp [contentChars]; omega]
    rw [heform] at hgt ⊢
    set trimNat : Nat :=
      (min (((((prompt.length + system.length + 3) / 4 : Nat) : Int) - T) * 4)
        ((prompt.length : Int) - 100)).toNat with htrim
    have htbound : trimNat ≤ prompt.length - 100 := by omega
    have hlen : (strTake prompt (prompt.length - trimNat)).length =
        prompt.length - trimNat := by
      rw [strTake_length]
      omega
    rcases trim_step_outcome prompt.length system.length T hgt hlong with
      hfloor | hexact
    · right
      rw [hlen]
      omega
    · left
      rw [estimateTokens_fallback]
      rw [show system.length + contentChars [] +
          (strTake prompt (prompt.length - trimNat)).length + 3 =
          (prompt.length - trimNat) + system.length + 3 from by
        rw [hlen]; simp [contentChars]; omega]
      exact le_of_eq hexact
  · right
    rw [promptTrimmed_of_short (estimateTokens none) T system [] prompt
      (by omega)]
    omega

/-- C5: `adjustContent` never raises (it is a total function), and
whenever the (fallback) estimate of the input triple exceeds
`contextWindow - 50`, the returned triple either estimates within
`contextWindow - 50`, or has an empty history with system and prompt
inside the 200-character trim threshold — each is either already at most
200 characters (the floor rules forbid trimming it further) or has been
cut to its 100-character floor.  The estimator here is the repository's
own fallback (`ceil(chars/4)`); the primary estimator is the external
`openai-chat-tokens` package. -/
theorem adjustContent_meets_budget_or_floors
    (system : String) (history : List ChatMessage) (prompt : String)
    (contextWindow : Nat)
    (hover : (contextWindow : Int) - 50 <
      (estimateTokens none (msgsFor system history prompt) : Int)) :
    ((estimateTokens none (msgsFor
        (adjustContent none system history prompt contextWindow).system
        (adjustContent none system history prompt contextWindow).history
        (adjustContent none system history prompt contextWindow).prompt) :
        Int) ≤ (contextWindow : Int) - 50)
    ∨ ((adjustContent none system history prompt contextWindow).history = []
       ∧ (adjustContent none system history prompt
            contextWindow).system.length ≤ 200
       ∧ (adjustContent none system history prompt
            contextWindow).prompt.length ≤ 200) := by
  have hadj : adjustContent none system history prompt contextWindow =
      { system := systemTrimmed (estimateTokens none)
          ((contextWindow : Int) - 50) system
          (trimOldest (estimateTokens none) ((contextWindow : Int) - 50)
            system prompt history) prompt
        history := trimOldest (estimateTokens none)
          ((contextWindow : Int) - 50) system prompt history
        prompt := promptTrimmed (estimateTokens none)
          ((contextWindow : Int) - 50)
          (systemTrimmed (estimateTokens none) ((contextWindow : Int) - 50)
            system
            (trimOldest (estimateTokens none) ((contextWindow : Int) - 50)
              system prompt history) prompt)
          (trimOldest (estimateTokens none) ((contextWindow : Int) - 50)
            system prompt history) prompt } := by
    simp only [adjustContent]
    rw [if_neg (not_le.mpr hover)]
  rw [hadj]
  dsimp only
  rcases trimOldest_fits_or_empty (estimateTokens none)
      ((contextWindow : Int) - 50) system prompt history with hfit | hempty
  · rw [systemTrimmed_of_le _ _ _ _ _ hfit, promptTrimmed_of_le _ _ _ _ _ hfit]
    exact Or.inl hfit
  · rw [hempty]
    by_cases hgt1 : (contextWindow : Int) - 50 <
        (estimateTokens none (msgsFor system [] prompt) : Int)
    case neg =>
      have hfit1 : (estimateTokens none (msgsFor system [] prompt) : Int) ≤
          (contextWindow : Int) - 50 := by omega
      rw [systemTrimmed_of_le _ _ _ _ _ hfit1,
        promptTrimmed_of_le _ _ _ _ _ hfit1]
      exact Or.inl hfit1
    case pos =>
      rcases system_stage system prompt ((contextWindow : Int) - 50) hgt1 with
        hfit2 | hshort2
      · rw [promptTrimmed_of_le _ _ _ _ _ hfit2]
        exact Or.inl hfit2
      · by_cases hgt2 : (contextWindow : Int) - 50 <
            (estimateTokens none (msgsFor
              (systemTrimmed (estimateTokens none) ((contextWindow : Int) - 50)
                system [] prompt) [] prompt) : Int)
        case neg =>
          have hfit2' : (estimateTokens none (msgsFor
              (systemTrimmed (estimateTokens none) ((contextWindow : Int) - 50)
                system [] prompt) [] prompt) : Int) ≤
              (contextWindow : Int) - 50 := by omega
          rw [promptTrimmed_of_le _ _ _ _ _ hfit2']
          exact Or.inl hfit2'
        case pos =>
          rcases prompt_stage
              (systemTrimmed (estimateTokens none) ((contextWindow : Int) - 50)
                system [] prompt) prompt ((contextWindow : Int) - 50) hgt2 with
            hfit3 | hshort3
          · exact Or.inl hfit3
          · exact Or.inr ⟨rfl, hshort2, hshort3⟩

/-- C5 witness: a concrete over-budget triple (context window 51, so the
target is 1 token) for which the adjusted triple satisfies the
postcondition. -/
theorem adjustContent_meets_budget_or_floors_witness :
    (((51 : Nat) : Int) - 50 <
      (estimateTokens none (msgsFor ""
        [{ role := "user", content := "aaaaaaaa" }] "bbbb") : Int))
    ∧ (((estimateTokens none (msgsFor
        (adjustContent none "" [{ role := "user", content := "aaaaaaaa" }]
          "bbbb" 51).system
        (adjustContent none "" [{ role := "user", content := "aaaaaaaa" }]
          "bbbb" 51).history
        (adjustContent none "" [{ role := "user", content := "aaaaaaaa" }]
          "bbbb" 51).prompt) : Int) ≤ ((51 : Nat) : Int) - 50)
      ∨ ((adjustContent none "" [{ role := "user", content := "aaaaaaaa" }]
            "bbbb" 51).history = []
         ∧ (adjustContent none "" [{ role := "user", content := "aaaaaaaa" }]
              "bbbb" 51).system.length ≤ 200
         ∧ (adjustContent none "" [{ role := "user", content := "aaaaaaaa" }]
              "bbbb" 51).prompt.length ≤ 200)) :=
  ⟨by decide,
   adjustContent_meets_budget_or_floors ""
     [{ role := "user", content := "aaaaaaaa" }] "bbbb" 51 (by decide)⟩
